import Mathlib

/-!
# Verification of the binary stream read/write subsystem of `node-lib`

Shallow embedding of the `BinaryReader`, `BinaryWriter` and `StreamWriter`
classes.  Buffers and files are modelled as `List Nat` of byte values;
JavaScript `number` offsets (which may go negative through `seek`) are
modelled as `Int`; fallible methods return `Except String`.  Decoded strings
are represented by their character-code lists (exact for `latin1`, and for
`ascii`/`utf8` on bytes below 128, which covers every input used here);
the NUL-stripping behaviour under scrutiny is encoding-independent.
-/

/-! ## Byte-level primitives (Node `Buffer` semantics) -/

/-- Little-endian byte encoding of a natural number into `n` bytes,
as produced by `Buffer.writeUIntLE(value, 0, n)`. -/
def bytesLE : Nat → Nat → List Nat
  | _, 0 => []
  | v, k + 1 => v % 256 :: bytesLE (v / 256) k

/-- Big-endian byte encoding, as produced by `Buffer.writeUIntBE(value, 0, n)`. -/
def bytesBE (v n : Nat) : List Nat := (bytesLE v n).reverse

/-- Value of a little-endian byte list, as returned by `Buffer.readUIntLE`. -/
def uintLE (l : List Nat) : Nat := l.foldr (fun b acc => b + 256 * acc) 0

/-- Value of a big-endian byte list, as returned by `Buffer.readUIntBE`. -/
def uintBE (l : List Nat) : Nat := l.foldl (fun acc b => 256 * acc + b) 0

/-- Two's-complement representation of a (possibly negative) integer in
`n` bytes: the bit pattern written by `Buffer.writeIntLE/writeIntBE`. -/
def intToTwos (v : Int) (n : Nat) : Nat := (v.emod ((2 : Int) ^ (8 * n))).toNat

/-- Signed interpretation of an `n`-byte unsigned value, as returned by
`Buffer.readIntLE/readIntBE`. -/
def toSigned (v : Nat) (n : Nat) : Int :=
  if v < 2 ^ (8 * n - 1) then (v : Int) else (v : Int) - (2 : Int) ^ (8 * n)

/-- JavaScript `TypedArray.prototype.subarray` index normalization:
a negative index counts from the end (clamped at 0), a nonnegative index
is clamped at the length. -/
def jsIndex (len : Nat) (i : Int) : Nat :=
  if i < 0 then ((len : Int) + i).toNat else min i.toNat len

/-- `buffer.subarray(s, e)` on a byte list. -/
def subarray (l : List Nat) (s e : Int) : List Nat :=
  (l.take (jsIndex l.length e)).drop (jsIndex l.length s)

/-- One-argument `buffer.subarray(s)` (up to the end of the buffer). -/
def subarrayFrom (l : List Nat) (s : Int) : List Nat :=
  l.drop (jsIndex l.length s)

/-- `FileHandle.read({buffer: Buffer.alloc(len), position: pos, length: len})`:
the destination buffer is zero-filled, then the bytes available in the file
at `pos` are copied in; bytes past the end of the file stay zero. -/
def fileRead (data : List Nat) (pos : Int) (len : Nat) : List Nat :=
  (data.drop pos.toNat).take len ++
    List.replicate (len - ((data.drop pos.toNat).take len).length) 0

/-- `.replace(new RegExp('\x00', 'g'), '')` on a decoded string: removes
every NUL character. -/
def stripAllNuls (l : List Nat) : List Nat := l.filter (fun b => b ≠ 0)

/-- `.replace('\x00', '')` on a decoded string: a string (non-regex) pattern
replaces only the first occurrence, so only the first NUL is removed. -/
def stripFirstNul : List Nat → List Nat
  | [] => []
  | 0 :: t => t
  | b :: t => b :: stripFirstNul t

/-! ## `formatNumberWithDots` (src/src/lib/strnum/formatNumberWithDots.ts) -/

/-- Decimal rendering of a natural number with `.` inserted as a thousands
separator (a dot after every digit that has a positive multiple of three
digits to its right). -/
def fmtNatWithDots (n : Nat) : String :=
  let cs := (toString n).toList
  let L := cs.length
  String.mk ((cs.enum.map (fun p =>
    let i := L - 1 - p.1
    if i % 3 = 0 ∧ i ≠ 0 then [p.2, '.'] else [p.2])).flatten)

/-- `formatNumberWithDots`: thousands separators, with a leading `-` for
negative input. -/
def formatNumberWithDots (v : Int) : String :=
  if v < 0 then "-" ++ fmtNatWithDots v.natAbs else fmtNatWithDots v.natAbs


/-! ## `BinaryWriter` (src/src/core/BinaryWriter.ts)

State is the list of accumulated chunks (`contents`). Each fixed-width
integer writer validates its range and either throws (`Except.error` with
the source's message) or pushes the encoded chunk. -/

structure BinaryWriter where
  contents : List (List Nat)
deriving DecidableEq

namespace BinaryWriter

/-- Range message of the unsigned writers:
`Value must be between 0 and ${formatNumberWithDots(max)}, provided ${formatNumberWithDots(value)}.` -/
def msgUnsigned (maxv : Nat) (v : Int) : String :=
  "Value must be between 0 and " ++ formatNumberWithDots maxv ++ ", provided "
    ++ formatNumberWithDots v ++ "."

/-- `writeUInt8` (lines 147-152). -/
def writeUInt8 (w : BinaryWriter) (value : Int) : Except String BinaryWriter :=
  if value < 0 ∨ value > 0xff then .error (msgUnsigned 0xff value)
  else .ok ⟨w.contents ++ [bytesLE value.toNat 1]⟩

/-- `writeUInt16LE` (lines 160-165). -/
def writeUInt16LE (w : BinaryWriter) (value : Int) : Except String BinaryWriter :=
  if value < 0 ∨ value > 0xffff then .error (msgUnsigned 0xffff value)
  else .ok ⟨w.contents ++ [bytesLE value.toNat 2]⟩

/-- `writeUInt16BE` (lines 173-178). -/
def writeUInt16BE (w : BinaryWriter) (value : Int) : Except String BinaryWriter :=
  if value < 0 ∨ value > 65535 then .error (msgUnsigned 0xffff value)
  else .ok ⟨w.contents ++ [bytesBE value.toNat 2]⟩

/-- `writeUInt24LE` (lines 186-191). -/
def writeUInt24LE (w : BinaryWriter) (value : Int) : Except String BinaryWriter :=
  if value < 0 ∨ value > 0xffffff then .error (msgUnsigned 0xffffff value)
  else .ok ⟨w.contents ++ [bytesLE value.toNat 3]⟩

/-- `writeUInt24BE` (lines 199-204). -/
def writeUInt24BE (w : BinaryWriter) (value : Int) : Except String BinaryWriter :=
  if value < 0 ∨ value > 0xffffff then .error (msgUnsigned 0xffffff value)
  else .ok ⟨w.contents ++ [bytesBE value.toNat 3]⟩

/-- `writeUInt32LE` (lines 212-217). -/
def writeUInt32LE (w : BinaryWriter) (value : Int) : Except String BinaryWriter :=
  if value < 0 ∨ value > 0xffffffff then .error (msgUnsigned 0xffffffff value)
  else .ok ⟨w.contents ++ [bytesLE value.toNat 4]⟩

/-- `writeUInt32BE` (lines 225-230). -/
def writeUInt32BE (w : BinaryWriter) (value : Int) : Except String BinaryWriter :=
  if value < 0 ∨ value > 0xffffffff then .error (msgUnsigned 0xffffffff value)
  else .ok ⟨w.contents ++ [bytesBE value.toNat 4]⟩

/-- `writeInt8` (lines 238-243). -/
def writeInt8 (w : BinaryWriter) (value : Int) : Except String BinaryWriter :=
  if value < -128 ∨ value > 127 then
    .error ("Value must be between -128 and 127, provided "
      ++ formatNumberWithDots value ++ ".")
  else .ok ⟨w.contents ++ [bytesLE (intToTwos value 1) 1]⟩

/-- `writeInt16LE` (lines 251-256). -/
def writeInt16LE (w : BinaryWriter) (value : Int) : Except String BinaryWriter :=
  if value < -32768 ∨ value > 32767 then
    .error ("Value must be between -32.768 and 32.767, provided "
      ++ formatNumberWithDots value ++ ".")
  else .ok ⟨w.contents ++ [bytesLE (intToTwos value 2) 2]⟩

/-- `writeInt16BE` (lines 264-269). -/
def writeInt16BE (w : BinaryWriter) (value : Int) : Except String BinaryWriter :=
  if value < -32768 ∨ value > 32767 then
    .error ("Value must be between -32.768 and 32.767, provided "
      ++ formatNumberWithDots value ++ ".")
  else .ok ⟨w.contents ++ [bytesBE (intToTwos value 2) 2]⟩

/-- `writeInt24LE` (lines 277-282). -/
def writeInt24LE (w : BinaryWriter) (value : Int) : Except String BinaryWriter :=
  if value < -8388608 ∨ value > 8388607 then
    .error ("Value must be between -8,388,608 and 8,388,607, provided "
      ++ formatNumberWithDots value ++ ".")
  else .ok ⟨w.contents ++ [bytesLE (intToTwos value 3) 3]⟩

/-- `writeInt24BE` (lines 290-295). -/
def writeInt24BE (w : BinaryWriter) (value : Int) : Except String BinaryWriter :=
  if value < -8388608 ∨ value > 8388607 then
    .error ("Value must be between -8,388,608 and 8,388,607, provided "
      ++ formatNumberWithDots value ++ ".")
  else .ok ⟨w.contents ++ [bytesBE (intToTwos value 3) 3]⟩

/-- `writeInt32LE` (lines 303-308). -/
def writeInt32LE (w : BinaryWriter) (value : Int) : Except String BinaryWriter :=
  if value < -2147483648 ∨ value > 2147483647 then
    .error ("Value must be between -2.147.483.648 and 2.147.483.647, provided "
      ++ formatNumberWithDots value ++ ".")
  else .ok ⟨w.contents ++ [bytesLE (intToTwos value 4) 4]⟩

/-- `writeInt32BE` (lines 316-321). -/
def writeInt32BE (w : BinaryWriter) (value : Int) : Except String BinaryWriter :=
  if value < -2147483648 ∨ value > 2147483647 then
    .error ("Value must be between -2.147.483.648 and 2.147.483.647, provided "
      ++ formatNumberWithDots value ++ ".")
  else .ok ⟨w.contents ++ [bytesBE (intToTwos value 4) 4]⟩

/-- `writeUInt64LE` (lines 381-385): the class performs no explicit check;
the range error (with a message naming the `0 .. 2^64-1` bounds and the
received value) is raised by Node's `Buffer.writeBigUInt64LE` itself. -/
def writeUInt64LE (w : BinaryWriter) (value : Int) : Except String BinaryWriter :=
  if value < 0 ∨ value > 0xffffffffffffffff then
    .error ("The value of \x22value\x22 is out of range. It must be >= 0n and < 2n ** 64n. Received "
      ++ toString value ++ "n")
  else .ok ⟨w.contents ++ [bytesLE value.toNat 8]⟩

/-- `writeUInt64BE` (lines 393-397): range check raised by
`Buffer.writeBigUInt64BE`. -/
def writeUInt64BE (w : BinaryWriter) (value : Int) : Except String BinaryWriter :=
  if value < 0 ∨ value > 0xffffffffffffffff then
    .error ("The value of \x22value\x22 is out of range. It must be >= 0n and < 2n ** 64n. Received "
      ++ toString value ++ "n")
  else .ok ⟨w.contents ++ [bytesBE value.toNat 8]⟩

/-- `writeInt64LE` (lines 405-409): range check raised by
`Buffer.writeBigInt64LE`. -/
def writeInt64LE (w : BinaryWriter) (value : Int) : Except String BinaryWriter :=
  if value < -9223372036854775808 ∨ value > 9223372036854775807 then
    .error ("The value of \x22value\x22 is out of range. It must be >= -(2n ** 63n) and < 2n ** 63n. Received "
      ++ toString value ++ "n")
  else .ok ⟨w.contents ++ [bytesLE (intToTwos value 8) 8]⟩

/-- `writeInt64BE` (lines 417-421): range check raised by
`Buffer.writeBigInt64BE`. -/
def writeInt64BE (w : BinaryWriter) (value : Int) : Except String BinaryWriter :=
  if value < -9223372036854775808 ∨ value > 9223372036854775807 then
    .error ("The value of \x22value\x22 is out of range. It must be >= -(2n ** 63n) and < 2n ** 63n. Received "
      ++ toString value ++ "n")
  else .ok ⟨w.contents ++ [bytesBE (intToTwos value 8) 8]⟩

end BinaryWriter

/-- `true` iff the writer call succeeded (did not throw). -/
def writeOk {α : Type} : Except String α → Bool
  | .ok _ => true
  | .error _ => false

instance {ε α : Type} [DecidableEq ε] [DecidableEq α] : DecidableEq (Except ε α)
  | .error e1, .error e2 =>
    if h : e1 = e2 then isTrue (by rw [h]) else isFalse (by simp [h])
  | .error _, .ok _ => isFalse (by simp)
  | .ok _, .error _ => isFalse (by simp)
  | .ok a1, .ok a2 =>
    if h : a1 = a2 then isTrue (by rw [h]) else isFalse (by simp [h])

/-! ## `BinaryReader` (src/unnamed/part_004)

State: the operator kind (`Buffer` vs `FileHandle`), the underlying byte
content (`data`, whose length is the class's `_length`), the cursor
(`_offset`, an `Int` since JavaScript arithmetic can drive it negative),
and the `_isClosed` flag. -/

inductive ROperator where
  | buffer
  | fileHandle
deriving DecidableEq

structure BinaryReader where
  operator : ROperator
  data : List Nat
  offset : Int
  isClosed : Bool
deriving DecidableEq

/-- Message thrown by `_checkIfFileHandleIsClosed` (lines 113-116). -/
def closedMsg : String :=
  "FileHandle object used by BinaryReader has already been closed."

namespace BinaryReader

/-- The class's `_length` / `length` getter: buffer length (or the file's
size captured at construction, which is the file content's length). -/
def length (st : BinaryReader) : Nat := st.data.length

/-- `read(allocSize?)` (lines 164-189): with a count, returns that slice and
advances the cursor; without, returns everything from the cursor on and
resets the cursor to 0. In the file-backed no-count branch
`Buffer.alloc(length - offset)` throws a `RangeError` for a negative size. -/
def read (st : BinaryReader) (allocSize : Option Nat) :
    Except String (List Nat × BinaryReader) :=
  if st.isClosed then .error closedMsg else
  match st.operator with
  | .buffer =>
    match allocSize with
    | some n => .ok (subarray st.data st.offset (st.offset + n),
        { st with offset := st.offset + n })
    | none => .ok (subarrayFrom st.data st.offset, { st with offset := 0 })
  | .fileHandle =>
    match allocSize with
    | some n => .ok (fileRead st.data st.offset n, { st with offset := st.offset + n })
    | none =>
      if (st.length : Int) - st.offset < 0 then
        .error "The argument allocSize is out of range"
      else
        .ok (fileRead st.data st.offset ((st.length : Int) - st.offset).toNat,
          { st with offset := 0 })

/-- `readUInt8` (lines 346-358). -/
def readUInt8 (st : BinaryReader) : Except String (Int × BinaryReader) :=
  if st.isClosed then .error closedMsg else
  match st.operator with
  | .buffer =>
    .ok ((uintLE (subarray st.data st.offset (st.offset + 1)) : Int),
      { st with offset := st.offset + 1 })
  | .fileHandle =>
    .ok ((uintLE (fileRead st.data st.offset 1) : Int), { st with offset := st.offset + 1 })

/-- `readInt16BE` (lines 517-529).  NOTE: the buffer branch calls
`buffer.readUInt16BE()` — the unsigned decoder — while the file branch
calls `buf.readInt16BE()`; this asymmetry is preserved verbatim. -/
def readInt16BE (st : BinaryReader) : Except String (Int × BinaryReader) :=
  if st.isClosed then .error closedMsg else
  match st.operator with
  | .buffer =>
    .ok ((uintBE (subarray st.data st.offset (st.offset + 2)) : Int),
      { st with offset := st.offset + 2 })
  | .fileHandle =>
    .ok (toSigned (uintBE (fileRead st.data st.offset 2)) 2, { st with offset := st.offset + 2 })

/-- `padding(allocSize = 1)` (lines 335-337): advances the cursor with no
closed check and no bounds check. -/
def padding (st : BinaryReader) (allocSize : Int) : BinaryReader :=
  { st with offset := st.offset + allocSize }

/-- The `method` argument of `seek` (`'start' | 'current' | 'end'`; `end`
is a Lean keyword, rendered `toEnd`). -/
inductive SeekMethod where
  | start
  | current
  | toEnd
deriving DecidableEq

/-- `seek(offset, method = 'start')` (lines 927-933): computes the target
from the chosen reference point, then subtracts `_length` once if the
result exceeds it. No closed check and no lower-bound check. -/
def seek (st : BinaryReader) (offset : Int) (method : SeekMethod) : BinaryReader :=
  let o : Int :=
    match method with
    | .start => offset
    | .current => st.offset + offset
    | .toEnd => (st.length : Int) + offset
  { st with offset := if o > (st.length : Int) then o - (st.length : Int) else o }

/-- The byte-by-byte sentinel loop of `readString` with `allocSize === null`,
buffer branch (lines 849-861): take `subarray(offset, offset + 1)`,
increment the offset, stop after consuming a zero byte, otherwise append
the chunk to the accumulating writer (an out-of-range read yields an empty
buffer, whose element 0 is `undefined ≠ 0`, so the loop keeps going).
`fuel` bounds the number of iterations we unfold; `none` means the loop is
still running after `fuel` iterations. -/
def readStringNullLoop (data : List Nat) : Nat → Int → List Nat → Option (List Nat × Int)
  | 0, _, _ => none
  | fuel + 1, off, acc =>
    match (subarray data off (off + 1)).head? with
    | some 0 => some (acc.reverse, off + 1)
    | some b => readStringNullLoop data fuel (off + 1) (b :: acc)
    | none => readStringNullLoop data fuel (off + 1) acc

/-- `readString(null)` on the buffer branch (lines 839-861): closed check,
then the sentinel loop from the current cursor; the decoded accumulated
bytes are returned and the cursor ends one past the consumed zero.
Result `none` means the call has not terminated within `fuel` iterations. -/
def readStringSentinel (st : BinaryReader) (fuel : Nat) :
    Option (Except String (List Nat × BinaryReader)) :=
  if st.isClosed then some (.error closedMsg) else
  match readStringNullLoop st.data fuel st.offset [] with
  | some (bytes, off2) => some (.ok (bytes, { st with offset := off2 }))
  | none => none

/-- `readString(undefined)` on the buffer branch (lines 863-865): the
remaining bytes from the cursor, cursor reset to 0, and **all** NULs
stripped (global-regex replace). -/
def readStringRemainingBuffer (st : BinaryReader) :
    Except String (List Nat × BinaryReader) :=
  if st.isClosed then .error closedMsg else
  .ok (stripAllNuls (subarrayFrom st.data st.offset), { st with offset := 0 })

/-- `readString(undefined)` on the file branch (lines 887-892): reads the
remaining bytes, resets the cursor to 0, and applies
`.replace('\x00', '')` — a string pattern, so only the **first** NUL is
stripped, unlike every sibling branch. -/
def readStringRemainingFile (st : BinaryReader) :
    Except String (List Nat × BinaryReader) :=
  if st.isClosed then .error closedMsg else
  if (st.length : Int) - st.offset < 0 then
    .error "The argument allocSize is out of range"
  else
    .ok (stripFirstNul (fileRead st.data st.offset ((st.length : Int) - st.offset).toNat),
      { st with offset := 0 })

/-- `readLatin1(allocSize?)` (lines 231-255): decoded text (char-code list)
with all NULs stripped in every branch; note the file branch tests
truthiness (`if (allocSize)`), so `allocSize = 0` falls through to the
"remaining" branch there. -/
def readLatin1 (st : BinaryReader) (allocSize : Option Nat) :
    Except String (List Nat × BinaryReader) :=
  if st.isClosed then .error closedMsg else
  match st.operator with
  | .buffer =>
    match allocSize with
    | some n => .ok (stripAllNuls (subarray st.data st.offset (st.offset + n)),
        { st with offset := st.offset + n })
    | none => .ok (stripAllNuls (subarrayFrom st.data st.offset), { st with offset := 0 })
  | .fileHandle =>
    match allocSize with
    | some 0 | none =>
      if (st.length : Int) - st.offset < 0 then
        .error "The argument allocSize is out of range"
      else
        .ok (stripAllNuls (fileRead st.data st.offset ((st.length : Int) - st.offset).toNat),
          { st with offset := 0 })
    | some n => .ok (stripAllNuls (fileRead st.data st.offset n),
        { st with offset := st.offset + n })

end BinaryReader

/-! ## The second `BinaryReader` variant (src/src/core/BinaryReader.ts)

This older variant has no `closed` flag at all; `seek(offset)` just assigns
the offset. Only the methods cited by the claims are embedded. -/

structure CoreBinaryReader where
  operator : ROperator
  data : List Nat
  offset : Int
deriving DecidableEq

namespace CoreBinaryReader

def size (st : CoreBinaryReader) : Nat := st.data.length

/-- `read(allocSize?)` (lines 104-127): same shape as the part_004 variant
but with no closed check. -/
def read (st : CoreBinaryReader) (allocSize : Option Nat) :
    Except String (List Nat × CoreBinaryReader) :=
  match st.operator with
  | .buffer =>
    match allocSize with
    | some n => .ok (subarray st.data st.offset (st.offset + n),
        { st with offset := st.offset + n })
    | none => .ok (subarrayFrom st.data st.offset, { st with offset := 0 })
  | .fileHandle =>
    match allocSize with
    | some n => .ok (fileRead st.data st.offset n, { st with offset := st.offset + n })
    | none =>
      if (st.size : Int) - st.offset < 0 then
        .error "The argument allocSize is out of range"
      else
        .ok (fileRead st.data st.offset ((st.size : Int) - st.offset).toNat,
          { st with offset := 0 })

/-- `readInt32LE` (lines 490-501). NOTE: the buffer branch calls
`buffer.readUInt32LE()` — the unsigned decoder — while the file branch
calls `buf.readInt32LE()`; preserved verbatim. -/
def readInt32LE (st : CoreBinaryReader) : Except String (Int × CoreBinaryReader) :=
  match st.operator with
  | .buffer =>
    .ok ((uintLE (subarray st.data st.offset (st.offset + 4)) : Int),
      { st with offset := st.offset + 4 })
  | .fileHandle =>
    .ok (toSigned (uintLE (fileRead st.data st.offset 4)) 4, { st with offset := st.offset + 4 })

end CoreBinaryReader

/-! ## `StreamWriter` (src/src/core/StreamWriter.ts)

Observable state: the running `_length` counter (the spec's
`cumulativeLength`) and the stream's closed flag. Each write returns the
updated state together with the number of bytes actually emitted to the
stream, or throws. -/

structure StreamWriter where
  length : Nat
  closed : Bool
deriving DecidableEq

namespace StreamWriter

/-- Message of `_checkStreamStatus` (lines 48-50). -/
def streamClosedMsg : String :=
  "Tried to use a writing method to a StreamWriter class which stream instance is already closed"

/-- `writeLatin1(value, allocSize?)` (lines 150-162); the string value is
given by its latin1 code units. With a truthy `allocSize` the buffer is
`Buffer.alloc(allocSize)` (so `allocSize` bytes are emitted) and the
source does `this._length = buf.length` — an assignment, not `+=`;
preserved verbatim. -/
def writeLatin1 (w : StreamWriter) (value : List Nat) (allocSize : Option Nat) :
    Except String (StreamWriter × Nat) :=
  if w.closed then .error streamClosedMsg else
  match allocSize with
  | some 0 | none => .ok ({ w with length := w.length + value.length }, value.length)
  | some n => .ok ({ w with length := n }, n)

/-- `writeUInt8(value)` (lines 230-237). -/
def writeUInt8 (w : StreamWriter) (value : Int) : Except String (StreamWriter × Nat) :=
  if w.closed then .error streamClosedMsg else
  if value < 0 ∨ value > 0xff then .error (BinaryWriter.msgUnsigned 0xff value)
  else .ok ({ w with length := w.length + 1 }, 1)

/-- `writeUInt8FromBitsArray(bitsArray)` (lines 557-564): folds the eight
bits MSB-first into a byte value, delegates to `writeUInt8` (which already
adds the emitted byte count), then does `this._length += 1` again;
preserved verbatim. -/
def writeUInt8FromBitsArray (w : StreamWriter) (bitsArray : List Nat) :
    Except String (StreamWriter × Nat) :=
  let value : Int := bitsArray.foldl (fun a b => 2 * a + (b : Int)) 0
  match writeUInt8 w value with
  | .error e => .error e
  | .ok (w2, emitted) => .ok ({ w2 with length := w2.length + 1 }, emitted)

end StreamWriter

/-! ## Spec-side reference definitions for `seek`

These two definitions follow the specification's wording ("absolute
positioning relative to start, relative to current cursor, or relative to
end"; "if the computed offset exceeds `length`, wrap by subtracting
`length` once") and are compared against the code-derived `seek`. -/

/-- The seek target demanded by the spec for each reference point. -/
def specSeekTarget (st : BinaryReader) (offset : Int) : BinaryReader.SeekMethod → Int
  | .start => offset
  | .current => st.offset + offset
  | .toEnd => (st.length : Int) + offset

/-- The spec's single-wrap normalization: subtract `length` exactly once
when the target exceeds it (not a full modulo reduction). -/
def specSingleWrap (len : Nat) (t : Int) : Int :=
  if t > (len : Int) then t - (len : Int) else t

/-! ## Helper lemmas -/

/-- `seek` computes exactly the spec's target followed by the spec's
single wrap. -/
lemma seek_offset_eq (st : BinaryReader) (o : Int) (m : BinaryReader.SeekMethod) :
    (st.seek o m).offset = specSingleWrap st.length (specSeekTarget st o m) := by
  cases m <;> rfl

/-- Success of a range-validated writer is the negation of its guard. -/
lemma writeOk_ite {α : Type} (c : Prop) [Decidable c] (e : String) (a : α) :
    writeOk (if c then Except.error e else Except.ok a) = true ↔ ¬c := by
  split <;> simp_all [writeOk]

lemma take_one_head? {α : Type} (l : List α) : (l.take 1).head? = l.head? := by
  cases l <;> rfl

/-- `buffer.subarray(off, off + 1)[0]` at a nonnegative cursor is the byte
at index `off` (or `undefined`, i.e. `none`, past the end). -/
lemma head_subarray_one (data : List Nat) (off : Nat) :
    (subarray data (off : Int) ((off : Int) + 1)).head? = data[off]? := by
  unfold subarray jsIndex
  rw [if_neg (by omega), if_neg (by omega)]
  have h1 : ((off : Int)).toNat = off := by omega
  have h2 : ((off : Int) + 1).toNat = off + 1 := by omega
  rw [h1, h2]
  rcases Nat.lt_or_ge off data.length with h | h
  · rw [Nat.min_eq_left (by omega : off + 1 ≤ data.length),
      Nat.min_eq_left (by omega : off ≤ data.length), List.drop_take]
    have h3 : off + 1 - off = 1 := by omega
    rw [h3, take_one_head?, List.head?_drop]
  · rw [Nat.min_eq_right (by omega : data.length ≤ off + 1), Nat.min_eq_right h,
      List.take_of_length_le (Nat.le_refl _), List.drop_eq_nil_of_le (Nat.le_refl _),
      List.getElem?_eq_none h]
    rfl

/-- The sentinel loop, run from a cursor under which the bytes are
`pre ++ 0 :: post` with no zero in `pre`, stops at that zero: it returns
the accumulated bytes followed by `pre` and the cursor one past the zero. -/
lemma readStringNullLoop_spec (pre : List Nat) :
    ∀ (data post acc : List Nat) (off fuel : Nat),
      data.drop off = pre ++ 0 :: post → (∀ b ∈ pre, b ≠ 0) → pre.length < fuel →
      BinaryReader.readStringNullLoop data fuel (off : Int) acc =
        some (acc.reverse ++ pre, ((off + pre.length + 1 : Nat) : Int)) := by
  induction pre with
  | nil =>
    intro data post acc off fuel hdrop _ hfuel
    obtain ⟨f, rfl⟩ : ∃ f, fuel = f + 1 := ⟨fuel - 1, by omega⟩
    have hbyte : data[off]? = some 0 := by
      rw [← List.head?_drop, hdrop]; rfl
    simp only [BinaryReader.readStringNullLoop, head_subarray_one, hbyte]
    simp
  | cons c rest ih =>
    intro data post acc off fuel hdrop hzero hfuel
    obtain ⟨f, rfl⟩ : ∃ f, fuel = f + 1 := ⟨fuel - 1, by omega⟩
    have hbyte : data[off]? = some c := by
      rw [← List.head?_drop, hdrop]; rfl
    have hc : c ≠ 0 := hzero c (by simp)
    obtain ⟨k, rfl⟩ : ∃ k, c = k + 1 := ⟨c - 1, by omega⟩
    have hdrop2 : data.drop (off + 1) = rest ++ 0 :: post := by
      have h2 := List.drop_drop 1 off data
      rw [← h2, hdrop]
      rfl
    have hcast : ((off : Int) + 1) = (((off + 1 : Nat) : Int)) := by omega
    simp only [BinaryReader.readStringNullLoop, head_subarray_one, hbyte]
    rw [hcast, ih data post ((k + 1) :: acc) (off + 1) f hdrop2
      (fun b hb => hzero b (by simp [hb])) (by simpa using hfuel)]
    apply congrArg
    rw [Prod.mk.injEq]
    refine ⟨by simp, ?_⟩
    simp only [List.length_cons]
    omega

/-- If no byte from the cursor on is zero, the sentinel loop never finds
the terminator, for any amount of fuel (out-of-range single-byte reads
yield empty buffers whose first element is not the zero sentinel). -/
lemma readStringNullLoop_no_zero (data : List Nat) :
    ∀ (fuel off : Nat) (acc : List Nat), (∀ b ∈ data.drop off, b ≠ 0) →
      BinaryReader.readStringNullLoop data fuel (off : Int) acc = none := by
  intro fuel
  induction fuel with
  | zero => intro off acc _; rfl
  | succ f ih =>
    intro off acc h
    have hcast : ((off : Int) + 1) = (((off + 1 : Nat) : Int)) := by omega
    have hsub : ∀ b ∈ data.drop (off + 1), b ≠ 0 := by
      intro b hb
      apply h
      have h2 := List.drop_drop 1 off data
      rw [← h2] at hb
      exact List.mem_of_mem_drop hb
    cases hbyte : data[off]? with
    | none =>
      simp only [BinaryReader.readStringNullLoop, head_subarray_one, hbyte]
      rw [hcast]
      exact ih (off + 1) acc hsub
    | some b =>
      have hb : b ∈ data.drop off := by
        apply List.mem_of_mem_head?
        rw [List.head?_drop, hbyte]
        rfl
      obtain ⟨k, rfl⟩ : ∃ k, b = k + 1 := ⟨b - 1, by have := h b hb; omega⟩
      simp only [BinaryReader.readStringNullLoop, head_subarray_one, hbyte]
      rw [hcast]
      exact ih (off + 1) ((k + 1) :: acc) hsub

/-- `buffer.subarray(off)` at a cursor within bounds drops the first
`off` bytes. -/
lemma subarrayFrom_nonneg (l : List Nat) (off : Int) (h2 : 0 ≤ off)
    (h3 : off ≤ (l.length : Int)) : subarrayFrom l off = l.drop off.toNat := by
  unfold subarrayFrom jsIndex
  rw [if_neg (by omega)]
  congr 1
  omega

/-- A file read of exactly the remaining bytes returns the suffix from the
cursor, with no zero padding. -/
lemma fileRead_all (data : List Nat) (off : Int) (h2 : 0 ≤ off)
    (h3 : off ≤ (data.length : Int)) :
    fileRead data off (((data.length : Int) - off).toNat) = data.drop off.toNat := by
  unfold fileRead
  have hn : ((data.length : Int) - off).toNat = data.length - off.toNat := by omega
  have hlen : (data.drop off.toNat).length = data.length - off.toNat :=
    List.length_drop _ _
  rw [hn, List.take_of_length_le (by rw [hlen]), hlen]
  simp

/-! ## Claim theorems -/

/-- C1: the write-then-read round trip does **not** return the written
value for every representable value: writing `-1` with `writeInt16BE`
produces the bytes `ff ff`, and the buffer-backed `readInt16BE` decodes
them as the unsigned value `65535`, not `-1` (the file-backed branch of
the very same method returns `-1`, and `writeInt32LE(-1)` read back by the
buffer-backed `readInt32LE` likewise yields `4294967295`). -/
theorem roundTrip_signed_buffer_violation :
    BinaryWriter.writeInt16BE ⟨[]⟩ (-1) = .ok ⟨[[255, 255]]⟩ ∧
    BinaryReader.readInt16BE ⟨.buffer, [255, 255], 0, false⟩ =
      .ok (65535, ⟨.buffer, [255, 255], 2, false⟩) ∧
    (65535 : Int) ≠ -1 ∧
    BinaryReader.readInt16BE ⟨.fileHandle, [255, 255], 0, false⟩ =
      .ok (-1, ⟨.fileHandle, [255, 255], 2, false⟩) ∧
    BinaryWriter.writeInt32LE ⟨[]⟩ (-1) = .ok ⟨[[255, 255, 255, 255]]⟩ ∧
    CoreBinaryReader.readInt32LE ⟨.buffer, [255, 255, 255, 255], 0⟩ =
      .ok (4294967295, ⟨.buffer, [255, 255, 255, 255], 4⟩) ∧
    (4294967295 : Int) ≠ -1 := by
  refine ⟨by decide, by decide, by decide, ?_, by decide, by decide, by decide⟩
  decide

/-- C2: `seek` positions relative to start, current cursor, or end, and
normalizes an overrunning target by subtracting the length exactly once:
for every reader the resulting cursor is the spec's single-wrap of the
spec's target; on a reader of length 100 with cursor 80, `seek(30,
'current')` (target 110) lands on 10; and the wrap is a single
subtraction, not a modulo: target 250 lands on 150, not `250 % 100 = 50`. -/
theorem seek_single_wrap_spec :
    (∀ (st : BinaryReader) (o : Int) (m : BinaryReader.SeekMethod),
      (st.seek o m).offset = specSingleWrap st.length (specSeekTarget st o m)) ∧
    (BinaryReader.seek ⟨.buffer, List.replicate 100 0, 80, false⟩ 30 .current).offset = 10 ∧
    (BinaryReader.seek ⟨.buffer, List.replicate 100 0, 80, false⟩ 250 .start).offset = 150 ∧
    (150 : Int) ≠ 250 % 100 := by
  refine ⟨fun st o m => seek_offset_eq st o m, by decide, by decide, by decide⟩

/-- C3: the `cumulativeLength` counter of `StreamWriter` is **not**
monotone and does not always advance by the emitted byte count: with the
counter at 10, `writeLatin1` with `allocSize = 4` emits 4 bytes but
*assigns* the counter to 4 (a decrease), and `writeUInt8FromBitsArray`
emits 1 byte but advances the counter by 2. -/
theorem streamWriter_cumulativeLength_violation :
    StreamWriter.writeLatin1 ⟨10, false⟩ [65] (some 4) = .ok (⟨4, false⟩, 4) ∧
    (4 : Nat) < 10 ∧
    StreamWriter.writeUInt8FromBitsArray ⟨10, false⟩ [0, 0, 0, 0, 0, 0, 1, 0] =
      .ok (⟨12, false⟩, 1) ∧
    (12 : Nat) ≠ 10 + 1 := by
  refine ⟨by decide, by decide, by decide, by decide⟩

/-- C4 counterexample: on a closed reader, `seek` (and `padding`) still
succeed and move the cursor — the claim that *no* seek succeeds after
close is false. -/
theorem closedReader_seek_still_succeeds :
    (⟨.buffer, [1, 2, 3], 0, true⟩ : BinaryReader).isClosed = true ∧
    (BinaryReader.seek ⟨.buffer, [1, 2, 3], 0, true⟩ 2 .start).offset = 2 ∧
    (BinaryReader.padding ⟨.buffer, [1, 2, 3], 0, true⟩ 1).offset = 1 := by
  refine ⟨rfl, by decide, by decide⟩

/-- C4 (amended): once `closed = true`, every read fails with the
"reader closed" message — on either operator kind — but `seek` and
`padding` perform no closed check: they still update the cursor normally. -/
theorem closedReader_reads_fail (st : BinaryReader) (a : Option Nat) (n o : Int)
    (m : BinaryReader.SeekMethod) (fuel : Nat) (h : st.isClosed = true) :
    st.read a = .error closedMsg ∧
    st.readUInt8 = .error closedMsg ∧
    st.readInt16BE = .error closedMsg ∧
    st.readLatin1 a = .error closedMsg ∧
    st.readStringSentinel fuel = some (.error closedMsg) ∧
    st.readStringRemainingBuffer = .error closedMsg ∧
    st.readStringRemainingFile = .error closedMsg ∧
    (st.seek o m).offset = specSingleWrap st.length (specSeekTarget st o m) ∧
    (st.padding n).offset = st.offset + n := by
  refine ⟨?_, ?_, ?_, ?_, ?_, ?_, ?_, seek_offset_eq st o m, rfl⟩ <;>
    simp [BinaryReader.read, BinaryReader.readUInt8, BinaryReader.readInt16BE,
      BinaryReader.readLatin1, BinaryReader.readStringSentinel,
      BinaryReader.readStringRemainingBuffer, BinaryReader.readStringRemainingFile, h]

/-- Witness for `closedReader_reads_fail` at a concrete closed reader. -/
theorem closedReader_reads_fail_witness :
    (⟨.buffer, [1, 2], 0, true⟩ : BinaryReader).isClosed = true ∧
    ((⟨.buffer, [1, 2], 0, true⟩ : BinaryReader).read none = .error closedMsg ∧
     (⟨.buffer, [1, 2], 0, true⟩ : BinaryReader).readUInt8 = .error closedMsg ∧
     (⟨.buffer, [1, 2], 0, true⟩ : BinaryReader).readInt16BE = .error closedMsg ∧
     (⟨.buffer, [1, 2], 0, true⟩ : BinaryReader).readLatin1 none = .error closedMsg ∧
     (⟨.buffer, [1, 2], 0, true⟩ : BinaryReader).readStringSentinel 0 =
       some (.error closedMsg) ∧
     (⟨.buffer, [1, 2], 0, true⟩ : BinaryReader).readStringRemainingBuffer =
       .error closedMsg ∧
     (⟨.buffer, [1, 2], 0, true⟩ : BinaryReader).readStringRemainingFile =
       .error closedMsg ∧
     (BinaryReader.seek ⟨.buffer, [1, 2], 0, true⟩ 0 .start).offset =
       specSingleWrap (BinaryReader.length ⟨.buffer, [1, 2], 0, true⟩)
         (specSeekTarget ⟨.buffer, [1, 2], 0, true⟩ 0 .start) ∧
     (BinaryReader.padding ⟨.buffer, [1, 2], 0, true⟩ 1).offset =
       (⟨.buffer, [1, 2], 0, true⟩ : BinaryReader).offset + 1) :=
  ⟨rfl, closedReader_reads_fail ⟨.buffer, [1, 2], 0, true⟩ none 1 0 .start 0 rfl⟩

/-- C7 counterexample: the cursor invariant `0 ≤ cursor ≤ length` is
violated by `seek` with a negative offset (cursor `-5`), by `seek` whose
target overruns the length by more than one length (cursor 150 on a
length-100 reader), and by `padding` past the end (cursor 200 on a
length-3 reader). -/
theorem cursor_invariant_violation :
    (BinaryReader.seek ⟨.buffer, [0, 0, 0], 0, false⟩ (-5) .start).offset = -5 ∧
    ((-5 : Int) < 0) ∧
    (BinaryReader.seek ⟨.buffer, List.replicate 100 0, 0, false⟩ 250 .start).offset = 150 ∧
    ((150 : Int) > 100) ∧
    (BinaryReader.padding ⟨.buffer, [0, 0, 0], 0, false⟩ 200).offset = 200 ∧
    ((200 : Int) > 3) := by
  refine ⟨by decide, by decide, by decide, by decide, by decide, by decide⟩

/-- C7 (amended): after `seek`, whenever the computed target lies in
`[0, 2·length]` the cursor satisfies `0 ≤ cursor ≤ length`; negative
targets, overruns of more than one length, and `padding` are excluded (see
the counterexample). -/
theorem seek_cursor_invariant_in_range (st : BinaryReader) (o : Int)
    (m : BinaryReader.SeekMethod) (h0 : 0 ≤ specSeekTarget st o m)
    (h1 : specSeekTarget st o m ≤ 2 * (st.length : Int)) :
    0 ≤ (st.seek o m).offset ∧ (st.seek o m).offset ≤ (st.length : Int) := by
  rw [seek_offset_eq, specSingleWrap]
  split <;> omega

/-- Witness for `seek_cursor_invariant_in_range`: the spec's own example,
length 100, cursor 80, `seek(30, 'current')` (target 110 ∈ [0, 200]). -/
theorem seek_cursor_invariant_in_range_witness :
    0 ≤ specSeekTarget ⟨.buffer, List.replicate 100 0, 80, false⟩ 30 .current ∧
    specSeekTarget ⟨.buffer, List.replicate 100 0, 80, false⟩ 30 .current ≤
      2 * ((⟨.buffer, List.replicate 100 0, 80, false⟩ : BinaryReader).length : Int) ∧
    (0 ≤ (BinaryReader.seek ⟨.buffer, List.replicate 100 0, 80, false⟩ 30 .current).offset ∧
     (BinaryReader.seek ⟨.buffer, List.replicate 100 0, 80, false⟩ 30 .current).offset ≤
       ((⟨.buffer, List.replicate 100 0, 80, false⟩ : BinaryReader).length : Int)) :=
  ⟨by decide, by decide,
    seek_cursor_invariant_in_range ⟨.buffer, List.replicate 100 0, 80, false⟩ 30 .current
      (by decide) (by decide)⟩

/-- C9: the file-backed "remaining" branch of `readString` strips only the
**first** NUL byte of the decoded text (string-pattern `replace`), while
the buffer-backed branch of the same method strips them all: on the bytes
`41 00 42 00`, the file-backed read returns char codes `[65, 66, 0]`
(i.e. `"AB\x00"`), not `[65, 66]` (`"AB"`). -/
theorem readString_fileRemaining_nul_violation :
    BinaryReader.readStringRemainingFile ⟨.fileHandle, [65, 0, 66, 0], 0, false⟩ =
      .ok ([65, 66, 0], ⟨.fileHandle, [65, 0, 66, 0], 0, false⟩) ∧
    ([65, 66, 0] : List Nat) ≠ [65, 66] ∧
    BinaryReader.readStringRemainingBuffer ⟨.buffer, [65, 0, 66, 0], 0, false⟩ =
      .ok ([65, 66], ⟨.buffer, [65, 0, 66, 0], 0, false⟩) ∧
    BinaryReader.readLatin1 ⟨.fileHandle, [65, 0, 66, 0], 0, false⟩ none =
      .ok ([65, 66], ⟨.fileHandle, [65, 0, 66, 0], 0, false⟩) := by
  refine ⟨by decide, by decide, by decide, by decide⟩

/-- C5: every fixed-width integer writer of `BinaryWriter` fails exactly
when the value lies outside the representable range of its width and
signedness; boundary values always succeed; `writeUInt8(256)` and
`writeInt8(-129)` fail with messages naming the valid bounds and the
offending value, while `writeUInt8(255)` and `writeInt8(127)` succeed. -/
theorem writer_range_enforcement :
    (∀ (w : BinaryWriter) (v : Int),
      (writeOk (w.writeUInt8 v) = true ↔ 0 ≤ v ∧ v ≤ 255) ∧
      (writeOk (w.writeUInt16LE v) = true ↔ 0 ≤ v ∧ v ≤ 65535) ∧
      (writeOk (w.writeUInt16BE v) = true ↔ 0 ≤ v ∧ v ≤ 65535) ∧
      (writeOk (w.writeUInt24LE v) = true ↔ 0 ≤ v ∧ v ≤ 16777215) ∧
      (writeOk (w.writeUInt24BE v) = true ↔ 0 ≤ v ∧ v ≤ 16777215) ∧
      (writeOk (w.writeUInt32LE v) = true ↔ 0 ≤ v ∧ v ≤ 4294967295) ∧
      (writeOk (w.writeUInt32BE v) = true ↔ 0 ≤ v ∧ v ≤ 4294967295) ∧
      (writeOk (w.writeUInt64LE v) = true ↔ 0 ≤ v ∧ v ≤ 18446744073709551615) ∧
      (writeOk (w.writeUInt64BE v) = true ↔ 0 ≤ v ∧ v ≤ 18446744073709551615) ∧
      (writeOk (w.writeInt8 v) = true ↔ -128 ≤ v ∧ v ≤ 127) ∧
      (writeOk (w.writeInt16LE v) = true ↔ -32768 ≤ v ∧ v ≤ 32767) ∧
      (writeOk (w.writeInt16BE v) = true ↔ -32768 ≤ v ∧ v ≤ 32767) ∧
      (writeOk (w.writeInt24LE v) = true ↔ -8388608 ≤ v ∧ v ≤ 8388607) ∧
      (writeOk (w.writeInt24BE v) = true ↔ -8388608 ≤ v ∧ v ≤ 8388607) ∧
      (writeOk (w.writeInt32LE v) = true ↔ -2147483648 ≤ v ∧ v ≤ 2147483647) ∧
      (writeOk (w.writeInt32BE v) = true ↔ -2147483648 ≤ v ∧ v ≤ 2147483647) ∧
      (writeOk (w.writeInt64LE v) = true ↔
        -9223372036854775808 ≤ v ∧ v ≤ 9223372036854775807) ∧
      (writeOk (w.writeInt64BE v) = true ↔
        -9223372036854775808 ≤ v ∧ v ≤ 9223372036854775807)) ∧
    BinaryWriter.writeUInt8 ⟨[]⟩ 256 =
      .error "Value must be between 0 and 255, provided 256." ∧
    writeOk (BinaryWriter.writeUInt8 ⟨[]⟩ 255) = true ∧
    BinaryWriter.writeInt8 ⟨[]⟩ (-129) =
      .error "Value must be between -128 and 127, provided -129." ∧
    writeOk (BinaryWriter.writeInt8 ⟨[]⟩ 127) = true ∧
    writeOk (BinaryWriter.writeUInt8 ⟨[]⟩ 0) = true ∧
    writeOk (BinaryWriter.writeUInt16LE ⟨[]⟩ 0) = true ∧
    writeOk (BinaryWriter.writeUInt16LE ⟨[]⟩ 65535) = true ∧
    writeOk (BinaryWriter.writeUInt16BE ⟨[]⟩ 65535) = true ∧
    writeOk (BinaryWriter.writeUInt24LE ⟨[]⟩ 16777215) = true ∧
    writeOk (BinaryWriter.writeUInt24BE ⟨[]⟩ 16777215) = true ∧
    writeOk (BinaryWriter.writeUInt32LE ⟨[]⟩ 4294967295) = true ∧
    writeOk (BinaryWriter.writeUInt32BE ⟨[]⟩ 4294967295) = true ∧
    writeOk (BinaryWriter.writeUInt64LE ⟨[]⟩ 18446744073709551615) = true ∧
    writeOk (BinaryWriter.writeUInt64BE ⟨[]⟩ 18446744073709551615) = true ∧
    writeOk (BinaryWriter.writeInt8 ⟨[]⟩ (-128)) = true ∧
    writeOk (BinaryWriter.writeInt16LE ⟨[]⟩ (-32768)) = true ∧
    writeOk (BinaryWriter.writeInt16LE ⟨[]⟩ 32767) = true ∧
    writeOk (BinaryWriter.writeInt16BE ⟨[]⟩ 32767) = true ∧
    writeOk (BinaryWriter.writeInt24LE ⟨[]⟩ (-8388608)) = true ∧
    writeOk (BinaryWriter.writeInt24BE ⟨[]⟩ 8388607) = true ∧
    writeOk (BinaryWriter.writeInt32LE ⟨[]⟩ (-2147483648)) = true ∧
    writeOk (BinaryWriter.writeInt32BE ⟨[]⟩ 2147483647) = true ∧
    writeOk (BinaryWriter.writeInt64LE ⟨[]⟩ (-9223372036854775808)) = true ∧
    writeOk (BinaryWriter.writeInt64BE ⟨[]⟩ 9223372036854775807) = true := by
  constructor
  · intro w v
    refine ⟨?_, ?_, ?_, ?_, ?_, ?_, ?_, ?_, ?_, ?_, ?_, ?_, ?_, ?_, ?_, ?_, ?_, ?_⟩ <;>
      · simp only [BinaryWriter.writeUInt8, BinaryWriter.writeUInt16LE,
          BinaryWriter.writeUInt16BE, BinaryWriter.writeUInt24LE,
          BinaryWriter.writeUInt24BE, BinaryWriter.writeUInt32LE,
          BinaryWriter.writeUInt32BE, BinaryWriter.writeUInt64LE,
          BinaryWriter.writeUInt64BE, BinaryWriter.writeInt8,
          BinaryWriter.writeInt16LE, BinaryWriter.writeInt16BE,
          BinaryWriter.writeInt24LE, BinaryWriter.writeInt24BE,
          BinaryWriter.writeInt32LE, BinaryWriter.writeInt32BE,
          BinaryWriter.writeInt64LE, BinaryWriter.writeInt64BE, writeOk_ite]
        omega
  · decide

/-- C6: the sentinel-terminated string read consumes bytes one at a time,
stops exactly at the first zero byte (exclusive), and leaves the cursor
immediately after the consumed zero: over `pre ++ 0 :: post` (no zero in
`pre`) it returns `pre` and the cursor lands at `pre.length + 1` — for the
spec's `"AB" 00 "CD"` example: `"AB"` with the cursor at 3. -/
theorem readString_sentinel_stops_at_first_zero (pre post : List Nat) (fuel : Nat)
    (h0 : ∀ b ∈ pre, b ≠ 0) (h1 : pre.length < fuel) :
    BinaryReader.readStringSentinel ⟨.buffer, pre ++ 0 :: post, 0, false⟩ fuel =
      some (.ok (pre,
        ⟨.buffer, pre ++ 0 :: post, ((pre.length + 1 : Nat) : Int), false⟩)) := by
  have h2 := readStringNullLoop_spec pre (pre ++ 0 :: post) post [] 0 fuel
    (by simp) h0 h1
  simp only [List.reverse_nil, List.nil_append, Nat.cast_zero, Nat.zero_add] at h2
  simp only [BinaryReader.readStringSentinel]
  rw [if_neg (by simp), h2]

/-- Witness for `readString_sentinel_stops_at_first_zero`: the spec's
scenario, bytes `"AB" 00 "CD"`, yields `"AB"` and cursor 3. -/
theorem readString_sentinel_stops_at_first_zero_witness :
    (∀ b ∈ ([65, 66] : List Nat), b ≠ 0) ∧
    ([65, 66] : List Nat).length < 3 ∧
    BinaryReader.readStringSentinel ⟨.buffer, [65, 66] ++ 0 :: [67, 68], 0, false⟩ 3 =
      some (.ok ([65, 66], ⟨.buffer, [65, 66] ++ 0 :: [67, 68],
        ((([65, 66] : List Nat).length + 1 : Nat) : Int), false⟩)) :=
  ⟨by decide, by decide,
    readString_sentinel_stops_at_first_zero [65, 66] [67, 68] 3 (by decide) (by decide)⟩

/-- C10: if no byte at or after the cursor of an open buffer-backed reader
is zero, the sentinel-terminated read never observes the terminator: for
every fuel bound the loop is still running (`none`), i.e. the call does
not terminate. -/
theorem readString_sentinel_no_zero_diverges (st : BinaryReader) (fuel : Nat)
    (h1 : st.isClosed = false) (h2 : st.operator = ROperator.buffer)
    (h3 : 0 ≤ st.offset) (h4 : ∀ b ∈ st.data.drop st.offset.toNat, b ≠ 0) :
    st.readStringSentinel fuel = none := by
  have hoff : st.offset = ((st.offset.toNat : Nat) : Int) := (Int.toNat_of_nonneg h3).symm
  simp only [BinaryReader.readStringSentinel]
  rw [if_neg (by simp [h1]), hoff,
    readStringNullLoop_no_zero st.data fuel st.offset.toNat [] h4]

/-- Witness for `readString_sentinel_no_zero_diverges`: an open reader
over `[65, 66]` (no zero) makes no progress for fuel 5. -/
theorem readString_sentinel_no_zero_diverges_witness :
    (⟨.buffer, [65, 66], 0, false⟩ : BinaryReader).isClosed = false ∧
    (⟨.buffer, [65, 66], 0, false⟩ : BinaryReader).operator = ROperator.buffer ∧
    0 ≤ (⟨.buffer, [65, 66], 0, false⟩ : BinaryReader).offset ∧
    (∀ b ∈ (⟨.buffer, [65, 66], 0, false⟩ : BinaryReader).data.drop
      (⟨.buffer, [65, 66], 0, false⟩ : BinaryReader).offset.toNat, b ≠ 0) ∧
    (⟨.buffer, [65, 66], 0, false⟩ : BinaryReader).readStringSentinel 5 = none :=
  ⟨rfl, rfl, by decide, by decide,
    readString_sentinel_no_zero_diverges ⟨.buffer, [65, 66], 0, false⟩ 5 rfl rfl
      (by decide) (by decide)⟩

/-- C8: a raw read issued without a byte count, on an open reader with the
cursor in bounds, returns all bytes from the cursor to the end and resets
the cursor to 0 (not to the length) — on both operator kinds and in both
`BinaryReader` variants. -/
theorem read_remaining_resets_cursor (st : BinaryReader) (cst : CoreBinaryReader)
    (h1 : st.isClosed = false) (h2 : 0 ≤ st.offset) (h3 : st.offset ≤ (st.length : Int))
    (h4 : 0 ≤ cst.offset) (h5 : cst.offset ≤ (cst.size : Int)) :
    st.read none = .ok (st.data.drop st.offset.toNat, { st with offset := 0 }) ∧
    cst.read none = .ok (cst.data.drop cst.offset.toNat, { cst with offset := 0 }) := by
  simp only [BinaryReader.length] at h3
  simp only [CoreBinaryReader.size] at h5
  constructor
  · simp only [BinaryReader.read, BinaryReader.length]
    rw [if_neg (by simp [h1])]
    cases hop : st.operator with
    | buffer => rw [subarrayFrom_nonneg st.data st.offset h2 h3]
    | fileHandle =>
      rw [if_neg (by omega), fileRead_all st.data st.offset h2 h3]
  · simp only [CoreBinaryReader.read, CoreBinaryReader.size]
    cases hop : cst.operator with
    | buffer => rw [subarrayFrom_nonneg cst.data cst.offset h4 h5]
    | fileHandle =>
      rw [if_neg (by omega), fileRead_all cst.data cst.offset h4 h5]

/-- Witness for `read_remaining_resets_cursor`: cursor 1 over `[1, 2, 3]`,
buffer-backed (part_004 variant) and file-backed (core variant). -/
theorem read_remaining_resets_cursor_witness :
    (⟨.buffer, [1, 2, 3], 1, false⟩ : BinaryReader).isClosed = false ∧
    0 ≤ (⟨.buffer, [1, 2, 3], 1, false⟩ : BinaryReader).offset ∧
    (⟨.buffer, [1, 2, 3], 1, false⟩ : BinaryReader).offset ≤
      ((⟨.buffer, [1, 2, 3], 1, false⟩ : BinaryReader).length : Int) ∧
    0 ≤ (⟨.fileHandle, [1, 2, 3], 1⟩ : CoreBinaryReader).offset ∧
    (⟨.fileHandle, [1, 2, 3], 1⟩ : CoreBinaryReader).offset ≤
      ((⟨.fileHandle, [1, 2, 3], 1⟩ : CoreBinaryReader).size : Int) ∧
    ((⟨.buffer, [1, 2, 3], 1, false⟩ : BinaryReader).read none =
      .ok ([2, 3], ⟨.buffer, [1, 2, 3], 0, false⟩) ∧
     (⟨.fileHandle, [1, 2, 3], 1⟩ : CoreBinaryReader).read none =
      .ok ([2, 3], ⟨.fileHandle, [1, 2, 3], 0⟩)) :=
  ⟨rfl, by decide, by decide, by decide, by decide,
    read_remaining_resets_cursor ⟨.buffer, [1, 2, 3], 1, false⟩ ⟨.fileHandle, [1, 2, 3], 1⟩
      rfl (by decide) (by decide) (by decide) (by decide)⟩
